import Mathlib

/-!
# Verification of the os-nvr media core against its specification

Shallow embedding of the parts of the os-nvr sources relevant to the
checked claims:

* `src/addons/doods/backend.go` — threshold parsing (`parseConfig`),
  detection filtering and event emission (`parseDetections`), frame
  timestamping (`readFrames`), ffmpeg argument / letterbox-multiplier
  generation (`generateFFmpegArgs`);
* `src/pkg/ffmpeg/ffmpeg.go` — the process supervisor (`process.Start`,
  `process.stop`, `NewProcess`), the HLS keyframe-duration parser
  (`getKeyframeDuration`) and `ParseArgs`;
* the path manager (`pathManager.AddPath` and its removal goroutine);
* `src/pkg/video/gortsplib/serverstream.go` — `ServerStream.WritePacketRTP`.

Conventions: Go `float32`/`float64` values are modelled as exact
rationals (`ℚ`); Go's `int(x)` float-to-int conversion (truncation
toward zero) is `ratTrunc`; Go `time.Time`/`time.Duration` values are
integers (an absolute instant, resp. a span, in a fixed unit);
fallible Go functions return `Except`/`Option`.  Go string functions
(`strings.TrimSpace`, `strings.Split`, `strings.ReplaceAll`,
`strconv.Atoi`, byte slicing) are embedded as character-list functions
with the same semantics on the ASCII data they are applied to here.
-/

namespace OsNvr

/-- Go's `int(x)` conversion of a float to an int: truncation toward zero. -/
def ratTrunc (q : ℚ) : ℤ :=
  if 0 ≤ q then ⌊q⌋ else -⌊-q⌋

/-! ## doods addon: thresholds and detection filtering
(`src/addons/doods/backend.go`) -/

/-- `type thresholds map[string]float64`, modelled as an association
list (label, threshold).  Go map keys are unique; none of the theorems
below needs that assumption. -/
abbrev Thresholds := List (String × ℚ)

/-- The threshold-pruning loop of `parseConfig`
(`src/addons/doods/backend.go:128-132`): every entry whose value is
exactly `-1` is deleted from the map. -/
def pruneThresholds (t : Thresholds) : Thresholds :=
  t.filter (fun p => decide (p.2 ≠ -1))

/-- One detection of the detector RPC response (`odrpc.Detection`):
normalized box corners in `[0,1]`, a confidence score and a label. -/
structure RpcDetection where
  top : ℚ
  left : ℚ
  bottom : ℚ
  right : ℚ
  confidence : ℚ
  label : String
deriving DecidableEq, Repr

/-- `ffmpeg.Rect` as used for a detection region (four ints). -/
structure Rect where
  top : ℤ
  left : ℤ
  bottom : ℤ
  right : ℤ
deriving DecidableEq, Repr

/-- `monitor.Detection`: label, score, and region rectangle. -/
structure MDetection where
  label : String
  score : ℚ
  region : Rect
deriving DecidableEq, Repr

/-- `monitor.Event` as filled in by `parseDetections`:
`{Time, Detections, Duration, RecDuration}`. -/
structure Event where
  time : ℤ
  detections : List MDetection
  duration : ℤ
  recDuration : ℤ
deriving DecidableEq, Repr

/-- The fields of `addon` that `parseDetections` reads: the parsed
config's thresholds and durations, and the letterbox multipliers. -/
structure AddonCfg where
  thresholds : Thresholds
  duration : ℤ
  recDuration : ℤ
  xMultiplier : ℚ
  yMultiplier : ℚ
deriving DecidableEq, Repr

/-- `conv := func(input float32) int { return int(input * 100) }`
inside `parseDetections`. -/
def conv (input : ℚ) : ℤ := ratTrunc (input * 100)

/-- The `monitor.Detection` built for a surviving detection in
`parseDetections` (`src/addons/doods/backend.go:495-506`): top/bottom
are scaled by `yMultiplier`, left/right by `xMultiplier`, then passed
through `conv`. -/
def mkMDetection (cfg : AddonCfg) (d : RpcDetection) : MDetection :=
  { label := d.label
    score := d.confidence
    region :=
      { top := conv (d.top * cfg.yMultiplier)
        left := conv (d.left * cfg.xMultiplier)
        bottom := conv (d.bottom * cfg.yMultiplier)
        right := conv (d.right * cfg.xMultiplier) } }

/-- The inner loop of `parseDetections` for one detection: for each
threshold entry, `if label != name || score < thresh { continue }`,
otherwise append the converted detection. -/
def filterOne (cfg : AddonCfg) (d : RpcDetection) : List MDetection :=
  (cfg.thresholds.filter
    (fun p => d.label == p.1 && decide (¬ d.confidence < p.2))).map
    (fun _ => mkMDetection cfg d)

/-- `addon.parseDetections` (`src/addons/doods/backend.go:475-525`):
returns the `Event` sent on the trigger channel, or `none` when
nothing is sent (`len(detections) == 0`, or no detection survives
filtering). `t` is the frame timestamp passed in. -/
def parseDetections (cfg : AddonCfg) (t : ℤ) (dets : List RpcDetection) :
    Option Event :=
  if dets.length = 0 then none
  else
    let filtered := dets.flatMap (filterOne cfg)
    if filtered.length ≠ 0 then
      some
        { time := t
          detections := filtered
          duration := cfg.duration
          recDuration := cfg.recDuration }
    else none

/-- A detection survives filtering: its label is a key of the
thresholds map and its score is not less than that label's
threshold. -/
def survives (t : Thresholds) (d : RpcDetection) : Prop :=
  ∃ p ∈ t, p.1 = d.label ∧ p.2 ≤ d.confidence

instance (t : Thresholds) (d : RpcDetection) : Decidable (survives t d) := by
  unfold survives
  infer_instance

/-- The thresholds of scenario s4 (`{"person": 0.5, "car": -1}`) as
they reach the addon: the raw map after `parseConfig`'s `-1`
pruning. -/
def s4Cfg : AddonCfg :=
  { thresholds := pruneThresholds [("person", 1/2), ("car", -1)]
    duration := 1
    recDuration := 1
    xMultiplier := 1
    yMultiplier := 1 }

/-- The s4 detector response
`[{person,0.7},{person,0.3},{car,0.9},{dog,0.99}]`. -/
def s4Detections : List RpcDetection :=
  [ { top := 0, left := 0, bottom := 0, right := 0, confidence := 7/10, label := "person" }
  , { top := 0, left := 0, bottom := 0, right := 0, confidence := 3/10, label := "person" }
  , { top := 0, left := 0, bottom := 0, right := 0, confidence := 9/10, label := "car" }
  , { top := 0, left := 0, bottom := 0, right := 0, confidence := 99/100, label := "dog" } ]

/-- The coordinate conversion described by the claim for C2, taken
from the spec's words (not from the source): a detector-space
coordinate times its inverse letterbox multiplier, expressed in
monitor-space percent units on the 0–10000 scale. -/
def specPercentUnits (q : ℚ) : ℤ := ratTrunc (q * 10000)

/-- A config with trivial letterboxing for the C2 counterexample:
one enabled label with threshold 0, both multipliers 1. -/
def c2Cfg : AddonCfg :=
  { thresholds := [("person", 0)]
    duration := 1
    recDuration := 1
    xMultiplier := 1
    yMultiplier := 1 }

/-- A detection covering the full detector frame (all corners at the
coordinate-space maximum 1) with full confidence. -/
def c2Det : RpcDetection :=
  { top := 1, left := 1, bottom := 1, right := 1, confidence := 1, label := "person" }

/-- The event `parseDetections c2Cfg 0 [c2Det]` emits. -/
def c2Event : Event :=
  { time := 0
    detections := [mkMDetection c2Cfg c2Det]
    duration := 1
    recDuration := 1 }

/-! ## doods addon: frame timestamping (`readFrames`) -/

/-- The timestamp attached to a frame in `readFrames`
(`src/addons/doods/backend.go:433-435`): `t := time.Now()` followed by
the statement `t.Add(-d.c.timestampOffset)`.  Go's `time.Time.Add` is
a pure function returning a new value; the source discards that
return value (it is not assigned to anything), so the stamp passed to
`sendFrame` is the unmodified read time.  The discarded subtraction is
kept here as a dead binding for fidelity to the source. -/
def frameTimestamp (now timestampOffset : ℤ) : ℤ :=
  let t := now
  let _discarded := t - timestampOffset
  t

/-! ## ffmpeg: keyframe-duration parsing (`getKeyframeDuration`,
`src/pkg/ffmpeg/ffmpeg.go:292-329`) -/

/-- Whitespace predicate of Go's `strings.TrimSpace` (restricted to
the ASCII whitespace characters). -/
def goIsSpace (c : Char) : Bool :=
  c == ' ' || c == '\t' || c == '\n' || c == '\x0b' || c == '\x0c' || c == '\r'

/-- Go `strings.TrimSpace`: drop leading and trailing whitespace. -/
def goTrimSpace (cs : List Char) : List Char :=
  ((cs.dropWhile goIsSpace).reverse.dropWhile goIsSpace).reverse

/-- Go `strings.Split(s, sep)` for a one-character separator: split at
every occurrence of `sep`; `Split("", sep) = [""]`. -/
def goSplitChar (sep : Char) (cs : List Char) : List String :=
  (cs.foldr
    (fun c acc => if c = sep then [] :: acc else (c :: acc.headI) :: acc.tail)
    [[]]).map String.mk

/-- Digit value of an ASCII character, `none` for a non-digit. -/
def digitVal (c : Char) : Option ℕ :=
  if '0' ≤ c ∧ c ≤ '9' then some (c.toNat - 48) else none

/-- Decimal value of a nonempty all-digit character list, `none`
otherwise. -/
def digitsToNat (cs : List Char) : Option ℕ :=
  match cs with
  | [] => none
  | _ => cs.foldl
      (fun acc c => acc.bind (fun n => (digitVal c).map (fun d => 10 * n + d)))
      (some 0)

/-- Go `strconv.Atoi`: an optional sign followed by at least one
decimal digit. -/
def goAtoi (s : String) : Option ℤ :=
  match s.data with
  | '-' :: rest => (digitsToNat rest).map (fun n => -(n : ℤ))
  | '+' :: rest => (digitsToNat rest).map (fun n => (n : ℤ))
  | cs => (digitsToNat cs).map (fun n => (n : ℤ))

/-- `strings.ReplaceAll(line, ".", "")`: with the one-character
pattern `"."` this removes every dot. -/
def removeDots (s : String) : String :=
  String.mk (s.data.filter (fun c => c != '.'))

/-- Go byte slice `s[i:j]` (the strings here are ASCII, so bytes and
characters coincide). -/
def goSlice (s : String) (i j : ℕ) : String :=
  String.mk ((s.data.drop i).take (j - i))

/-- The core of `getKeyframeDuration` after the playlist has been
trimmed and split into lines: take the second-to-last line, remove all
dots, require at least 12 bytes, `Atoi` bytes 8 to 11, and return that
many milliseconds. -/
def getKeyframeDurationLines (lines : List String) : Except String ℤ :=
  if lines.length < 2 then .error "too few lines"
  else
    let keyframeLine := removeDots (lines.getD (lines.length - 2) "")
    if keyframeLine.data.length < 12 then .error "invalid line"
    else
      match goAtoi (goSlice keyframeLine 8 12) with
      | some n => .ok n
      | none => .error "atoi error"

/-- `getKeyframeDuration` (`src/pkg/ffmpeg/ffmpeg.go:292-329`) applied
to the playlist text (the file read step is outside the model): trim,
split on newlines, then parse the penultimate line.  The result is in
milliseconds. -/
def getKeyframeDuration (m3u8 : String) : Except String ℤ :=
  getKeyframeDurationLines (goSplitChar '\n' (goTrimSpace m3u8.data))

/-! ## ffmpeg: process supervisor (`process.Start` / `process.stop`,
`src/pkg/ffmpeg/ffmpeg.go:56-131`) -/

/-- `process.Start` (`src/pkg/ffmpeg/ffmpeg.go:90-114`), as a function
of the outcome of `cmd.Start()` and of `cmd.Wait()` (each `none` for
success or `some` its Go error string): a `cmd.Start` error is
returned as is; after waiting, an error whose text is exactly
`"exit status 255"` is converted to a `nil` return ("FFmpeg seems to
return 255 on normal exit"), any other wait outcome is returned
unchanged.  The cancellation goroutine only signals the child (via
`process.stop`, see `stopEvents`); it does not alter this return
value. -/
def processStart (startErr waitErr : Option String) : Option String :=
  match startErr with
  | some e => some e
  | none => if waitErr = some "exit status 255" then none else waitErr

/-- The Go error string of `cmd.Wait` when the child exits with the
given status: `nil` for 0, `exit status N` otherwise. -/
def goExitErr (code : ℕ) : Option String :=
  if code = 0 then none else some ("exit status " ++ toString code)

/-- Signals `process.stop` can send. -/
inductive SigEvent
  | sigint
  | sigkill
deriving DecidableEq, Repr

/-- The default stop timeout installed by `NewProcess`
(`src/pkg/ffmpeg/ffmpeg.go:56-61`): `1000 * time.Millisecond`. -/
def newProcessTimeoutMs : ℕ := 1000

/-- `process.stop` (`src/pkg/ffmpeg/ffmpeg.go:118-127`) as its trace
of signal events, each tagged with the time (ms) since `stop` began:
`SIGINT` is sent immediately; then `select` waits on the done channel
against `time.After(timeout)`; if the child exits within `timeout`
(`exitAfterInt ≤ timeoutMs`) nothing further is sent, otherwise
`SIGKILL` is sent when the timer fires, at time `timeoutMs`, and stop
waits for the exit.  `exitAfterInt` is the instant the child exits,
measured from the `SIGINT`; an exit exactly at the timeout is resolved
in favor of the done channel. -/
def stopEvents (timeoutMs exitAfterInt : ℕ) : List (ℕ × SigEvent) :=
  if exitAfterInt ≤ timeoutMs then [(0, .sigint)]
  else [(0, .sigint), (timeoutMs, .sigkill)]

/-! ## Path manager (`pathManager.AddPath`, `src/unnamed/part_002`) -/

/-- The payload of a `PathConf` relevant here (the monitor id used by
`NewPath` in the tests). -/
structure PathConf where
  monitorID : String
deriving DecidableEq, Repr

/-- The two maps of `pathManager` guarded by its mutex: `pathConfs`
and `paths` (a registered path is represented by its name; path
internals are not needed by the claims). -/
structure PMState where
  pathConfs : List (String × PathConf)
  paths : List String
deriving DecidableEq, Repr

/-- Modelled from the spec: `PathConf.CheckAndFillMissing` is called
by `AddPath` but its source is not under `src/`.  §4.2 of the spec
describes `AddPath` as failing only with `ErrPathAlreadyExist`, so the
config check is modelled as always succeeding and returning the
(possibly filled-in) config unchanged. -/
def checkAndFillMissing (name : String) (c : PathConf) : PathConf :=
  let _ := name
  c

/-- Whether a path name is live: `if _, exist := pm.pathConfs[name]`. -/
def hasPath (pm : PMState) (name : String) : Bool :=
  pm.pathConfs.any (fun p => p.1 == name)

/-- Errors of the modelled `AddPath`. -/
inductive AddPathError
  | pathAlreadyExist
deriving DecidableEq, Repr

/-- `pathManager.AddPath` (`src/unnamed/part_002:52-124`), one
mutex-serialized call: check and fill the config, fail with
`ErrPathAlreadyExist` if the name is already a key of `pathConfs`
(leaving both maps untouched), otherwise insert the config and the new
path under the name and return the muxer handle (the returned closure
looks the muxer up by the captured name, so it is modelled by the
name). -/
def AddPath (pm : PMState) (name : String) (newConf : PathConf) :
    Except AddPathError String × PMState :=
  let config := checkAndFillMissing name newConf
  if hasPath pm name then (.error .pathAlreadyExist, pm)
  else
    (.ok name,
      { pathConfs := pm.pathConfs ++ [(name, config)]
        paths := pm.paths ++ [name] })

/-- The empty path-manager state. -/
def emptyPM : PMState := { pathConfs := [], paths := [] }

/-- A concrete path config for the C5 witness. -/
def c5Conf : PathConf := { monitorID := "x" }

/-- The atomic steps of the path-removal goroutine spawned by
`AddPath`. -/
inductive PMAction
  | lockMu
  | removeConf
  | closePath
  | removePath
  | unlockMu
deriving DecidableEq, Repr

/-- The removal goroutine body of `AddPath`
(`src/unnamed/part_002:100-120`) as its sequence of steps: after
`<-ctx.Done()` it runs `pm.mu.Lock()` (with the matching deferred
unlock), `delete(pm.pathConfs, name)`, `pm.paths[name].close()`,
`delete(pm.paths, name)`, and only then the deferred
`pm.mu.Unlock()`. -/
def removePathGoroutine : List PMAction :=
  [.lockMu, .removeConf, .closePath, .removePath, .unlockMu]

/-- Whether the manager mutex is held when the first occurrence of `a`
in `acts` runs: strictly more `lockMu` than `unlockMu` steps precede
it. -/
def muHeldAtFirst (acts : List PMAction) (a : PMAction) : Bool :=
  let i := acts.findIdx (fun x => decide (x = a))
  decide ((acts.take i).count .unlockMu < (acts.take i).count .lockMu)

/-! ## ServerStream (`src/pkg/video/gortsplib/serverstream.go`) -/

/-- The RTP packet header fields `WritePacketRTP` reads. -/
structure RtpHeader where
  sequenceNumber : ℕ
  timestamp : ℕ
  ssrc : ℕ
deriving DecidableEq, Repr

/-- An RTP packet: header plus payload. -/
structure RtpPacket where
  header : RtpHeader
  payload : List ℕ
deriving DecidableEq, Repr

/-- `serverStreamTrack`: per-track last-seen counters. -/
structure STrack where
  lastSequenceNumber : ℕ
  lastTimeRTP : ℕ
  lastTimeNTP : ℤ
  lastSSRC : ℕ
deriving DecidableEq, Repr

/-- The mutable state of a `ServerStream` touched by `WritePacketRTP`:
the per-track counters and, for each active (unicast) reader, the log
of `(trackID, bytes)` writes it has received. -/
structure ServerStreamState where
  stTracks : List STrack
  readersUnicast : List (ℕ × List (ℕ × List ℕ))
deriving DecidableEq, Repr

/-- `ServerStream.WritePacketRTP`
(`src/pkg/video/gortsplib/serverstream.go:131-152`).  `marshal` is the
external `pkt.Marshal()` of pion/rtp (`none` models a serialization
error): on error the function returns at once, before any counter
store or reader write; on success it stores the header's sequence
number, RTP timestamp, current NTP time and SSRC into the track's
counters and appends the marshalled bytes to every unicast reader. -/
def WritePacketRTP (marshal : RtpPacket → Option (List ℕ)) (now : ℤ)
    (st : ServerStreamState) (trackID : ℕ) (pkt : RtpPacket) :
    ServerStreamState :=
  match marshal pkt with
  | none => st
  | some byts =>
    { stTracks := st.stTracks.set trackID
        { lastSequenceNumber := pkt.header.sequenceNumber
          lastTimeRTP := pkt.header.timestamp
          lastTimeNTP := now
          lastSSRC := pkt.header.ssrc }
      readersUnicast := st.readersUnicast.map
        (fun r => (r.1, r.2 ++ [(trackID, byts)])) }

/-- A concrete stream state used to witness `WritePacketRTP`'s
behavior on a failing marshal. -/
def c9State : ServerStreamState :=
  { stTracks := [{ lastSequenceNumber := 7, lastTimeRTP := 8, lastTimeNTP := 9, lastSSRC := 10 }]
    readersUnicast := [(0, [])] }

/-- A concrete RTP packet for the `WritePacketRTP` witness. -/
def c9Packet : RtpPacket :=
  { header := { sequenceNumber := 1, timestamp := 2, ssrc := 3 }, payload := [4] }

/-! ## doods addon: `generateFFmpegArgs`
(`src/addons/doods/backend.go:216-277`) -/

/-- `ffmpeg.ParseArgs` (`src/pkg/ffmpeg/ffmpeg.go:260-262`):
`strings.Split(strings.TrimSpace(args), " ")`. -/
def parseArgs (args : String) : List String :=
  goSplitChar ' ' (goTrimSpace args.data)

/-- The result triple of `generateFFmpegArgs`: the argument list and
the two inverse letterbox multipliers. -/
structure FFArgsResult where
  args : List String
  xMultiplier : ℚ
  yMultiplier : ℚ
deriving DecidableEq, Repr

/-- The frame-size and multiplier block in the middle of
`addon.generateFFmpegArgs` (`src/addons/doods/backend.go:238-254`),
returning `(frameWidth, frameHeight, xMultiplier, yMultiplier)`: the
wider-than-tall branch scales the frame height and sets `yMultiplier`
to the un-truncated inverse ratio, the taller-than-wide branch scales
the frame width and sets `xMultiplier`, and the square case keeps the
detector dimensions with both multipliers 1. -/
def letterbox (outputWidth outputHeight : ℤ) (inputWidth inputHeight : ℚ) :
    String × String × ℚ × ℚ :=
  if inputHeight < inputWidth then
    let height : ℚ := (outputHeight : ℚ) * inputHeight / inputWidth
    (toString outputWidth, toString (ratTrunc height),
      (1 : ℚ), (outputHeight : ℚ) / height)
  else if inputWidth < inputHeight then
    let width : ℚ := (outputWidth : ℚ) * inputWidth / inputHeight
    (toString (ratTrunc width), toString outputHeight,
      (outputWidth : ℚ) / width, (1 : ℚ))
  else
    (toString outputWidth, toString outputHeight, (1 : ℚ), (1 : ℚ))

/-- `addon.generateFFmpegArgs` (`src/addons/doods/backend.go:216-277`)
after the `WxH` size string has been split and both components parsed
(`inputWidth`, `inputHeight`; Go `float64` modelled as `ℚ`).
`outputWidth`/`outputHeight` are the detector's model dimensions;
`logLevel`, `hwaccel`, `fps` and `mainPipe` are the remaining config
strings.  The guards reject an input dimension whose truncation is
smaller than the corresponding output dimension; on success the
argument list and the two multipliers of `letterbox` are returned. -/
def generateFFmpegArgs (outputWidth outputHeight : ℤ)
    (inputWidth inputHeight : ℚ)
    (logLevel hwaccel fps mainPipe : String) : Except String FFArgsResult :=
  if ratTrunc inputWidth < outputWidth then
    .error "input width is less than output width"
  else if ratTrunc inputHeight < outputHeight then
    .error "input height is less than output height"
  else
    let wh := letterbox outputWidth outputHeight inputWidth inputHeight
    .ok
      { args :=
          ["-y", "-loglevel", logLevel]
            ++ (if hwaccel ≠ "" then parseArgs ("-hwaccel " ++ hwaccel) else [])
            ++ ["-i", mainPipe, "-filter",
                "fps=fps=" ++ fps ++ ",scale=" ++ wh.1 ++ ":" ++ wh.2.1
                  ++ ",pad=" ++ toString outputWidth ++ ":"
                  ++ toString outputHeight ++ ":0:0",
                "-f", "rawvideo", "-pix_fmt", "rgb24", "-"]
        xMultiplier := wh.2.2.1
        yMultiplier := wh.2.2.2 }

/-- The concrete success result of `generateFFmpegArgs` on a 600×400
input feeding a 300×300 detector (used by the C10 witness): height is
scaled to 200 and `yMultiplier` is 3/2. -/
def c10Result : FFArgsResult :=
  { args :=
      ["-y", "-loglevel", "info", "-i", "pipe", "-filter",
       "fps=fps=2,scale=300:200,pad=300:300:0:0",
       "-f", "rawvideo", "-pix_fmt", "rgb24", "-"]
    xMultiplier := 1
    yMultiplier := 3/2 }

/-! ## Helper lemmas -/

theorem ratTrunc_of_nonneg {q : ℚ} (h : 0 ≤ q) : ratTrunc q = ⌊q⌋ := by
  simp [ratTrunc, h]

theorem ratTrunc_le {q : ℚ} (h : 0 ≤ q) : (ratTrunc q : ℚ) ≤ q := by
  rw [ratTrunc_of_nonneg h]
  exact_mod_cast Int.floor_le q

theorem ratTrunc_nonneg {q : ℚ} (h : 0 ≤ q) : 0 ≤ ratTrunc q := by
  rw [ratTrunc_of_nonneg h]
  exact Int.floor_nonneg.mpr h

theorem filterOne_eq_nil_iff (cfg : AddonCfg) (d : RpcDetection) :
    filterOne cfg d = [] ↔ ¬ survives cfg.thresholds d := by
  unfold filterOne survives
  rw [List.map_eq_nil_iff, List.filter_eq_nil_iff]
  constructor
  · rintro h ⟨p, hp, hlab, hsc⟩
    exact h p hp (by simp [hlab, hsc, not_lt])
  · intro h p hp hb
    simp only [Bool.and_eq_true, beq_iff_eq, decide_eq_true_eq, not_lt] at hb
    exact h ⟨p, hp, hb.1.symm, hb.2⟩

/-! ## Claim theorems -/

/-- C1.  Threshold filtering: after parsing, every threshold entry
with value exactly `-1` is removed and all other entries are kept; a
detection survives filtering iff its label is a key of the thresholds
map and its score is not less than that label's threshold; an event is
posted exactly when at least one detection survives; and on the s4
inputs (thresholds `{"person": 0.5, "car": -1}`, response
`[{person,0.7},{person,0.3},{car,0.9},{dog,0.99}]`) the emitted
event's detection list is exactly `[{person, 0.7}]`. -/
theorem doods_threshold_filtering :
    (∀ (t : Thresholds) (name : String) (v : ℚ),
        (name, v) ∈ pruneThresholds t ↔ (name, v) ∈ t ∧ v ≠ -1)
    ∧ (∀ (cfg : AddonCfg) (d : RpcDetection),
        filterOne cfg d ≠ [] ↔ survives cfg.thresholds d)
    ∧ (∀ (cfg : AddonCfg) (t : ℤ) (dets : List RpcDetection),
        (parseDetections cfg t dets).isSome ↔
          ∃ d ∈ dets, survives cfg.thresholds d)
    ∧ (parseDetections s4Cfg 0 s4Detections).map
        (fun ev => ev.detections.map (fun m => (m.label, m.score)))
        = some [("person", 7/10)] := by
  refine ⟨?_, ?_, ?_, ?_⟩
  · intro t name v
    simp [pruneThresholds, List.mem_filter]
  · intro cfg d
    constructor
    · intro h
      by_contra hs
      exact h ((filterOne_eq_nil_iff cfg d).mpr hs)
    · intro hs h
      exact (filterOne_eq_nil_iff cfg d).mp h hs
  · intro cfg t dets
    unfold parseDetections
    rcases eq_or_ne dets.length 0 with h0 | h0
    · rw [if_pos h0]
      rw [List.length_eq_zero] at h0
      subst h0
      simp [survives]
    · rw [if_neg h0]
      by_cases hf : (dets.flatMap (filterOne cfg)).length ≠ 0
      · rw [if_pos hf]
        simp only [Option.isSome_some, true_iff]
        have hnil : dets.flatMap (filterOne cfg) ≠ [] := by
          intro h
          exact hf (by rw [h]; rfl)
        rw [Ne, List.flatMap_eq_nil_iff] at hnil
        push_neg at hnil
        obtain ⟨d, hdmem, hne⟩ := hnil
        refine ⟨d, hdmem, ?_⟩
        by_contra hs
        exact hne ((filterOne_eq_nil_iff cfg d).mpr hs)
      · rw [if_neg hf]
        push_neg at hf
        rw [List.length_eq_zero, List.flatMap_eq_nil_iff] at hf
        simp only [Option.isSome_none, Bool.false_eq_true, false_iff]
        rintro ⟨d, hdmem, hsurv⟩
        exact (filterOne_eq_nil_iff cfg d).mp (hf d hdmem) hsurv
  · norm_num [parseDetections, s4Cfg, s4Detections, pruneThresholds, filterOne,
      mkMDetection, conv, ratTrunc, List.filter_cons, List.filter_nil,
      List.flatMap_cons, List.flatMap_nil]
    exact ⟨by decide, by decide⟩

/-- C2 (amended).  Every detection in an emitted event carries the
rectangle built from its detector-space coordinates times the matching
inverse letterbox multiplier (`yMultiplier` for top/bottom,
`xMultiplier` for left/right), converted to monitor-space percent
units by multiplying by 100 and truncating — a 0–100 scale (not
0–10000): whenever the scaled coordinate lies in `[0,1]`, the stored
value lies in `[0,100]`. -/
theorem doods_region_conversion :
    (∀ (cfg : AddonCfg) (t : ℤ) (dets : List RpcDetection) (ev : Event),
        parseDetections cfg t dets = some ev →
        ∀ m ∈ ev.detections, ∃ d ∈ dets,
          m.label = d.label ∧ m.score = d.confidence ∧
          m.region =
            { top := conv (d.top * cfg.yMultiplier)
              left := conv (d.left * cfg.xMultiplier)
              bottom := conv (d.bottom * cfg.yMultiplier)
              right := conv (d.right * cfg.xMultiplier) })
    ∧ (∀ q : ℚ, 0 ≤ q → q ≤ 1 → 0 ≤ conv q ∧ conv q ≤ 100) := by
  constructor
  · intro cfg t dets ev hev m hm
    unfold parseDetections at hev
    by_cases h1 : dets.length = 0
    · rw [if_pos h1] at hev
      simp at hev
    · rw [if_neg h1] at hev
      have hev' :
          (if (dets.flatMap (filterOne cfg)).length ≠ 0 then
            some
              { time := t
                detections := dets.flatMap (filterOne cfg)
                duration := cfg.duration
                recDuration := cfg.recDuration }
          else none) = some ev := hev
      by_cases h2 : (dets.flatMap (filterOne cfg)).length ≠ 0
      · rw [if_pos h2, Option.some.injEq] at hev'
        subst hev'
        rw [List.mem_flatMap] at hm
        obtain ⟨d, hd, hmem⟩ := hm
        unfold filterOne at hmem
        rw [List.mem_map] at hmem
        obtain ⟨p, _, hp⟩ := hmem
        subst hp
        exact ⟨d, hd, rfl, rfl, rfl⟩
      · rw [if_neg h2] at hev'
        simp at hev'
  · intro q h0 h1
    have h100 : (0 : ℚ) ≤ q * 100 := by positivity
    unfold conv
    refine ⟨ratTrunc_nonneg h100, ?_⟩
    rw [ratTrunc_of_nonneg h100]
    have hle : q * 100 ≤ (100 : ℚ) := by nlinarith
    calc ⌊q * 100⌋ ≤ ⌊(100 : ℚ)⌋ := Int.floor_le_floor hle
      _ = 100 := by norm_num

/-- C2 counterexample to the claim as stated.  On trivial letterboxing
(both multipliers 1) and a detection whose coordinates are all at the
detector-space maximum 1, the emitted rectangle's top is 100 — the
full-range value of the 0–100 scale the code actually uses — whereas
the claimed 0–10000 percent-unit conversion of the same scaled
coordinate is 10000. -/
theorem doods_region_scale_counterexample :
    (parseDetections c2Cfg 0 [c2Det]).map
        (fun ev => ev.detections.map (fun m => m.region.top))
      = some [(100 : ℤ)]
    ∧ specPercentUnits (c2Det.top * c2Cfg.yMultiplier) = 10000
    ∧ (100 : ℤ) ≠ 10000 := by
  refine ⟨?_, ?_, by decide⟩
  · norm_num [parseDetections, c2Cfg, c2Det, filterOne, mkMDetection, conv,
      ratTrunc, List.filter_cons, List.flatMap_cons, List.flatMap_nil]
  · norm_num [specPercentUnits, c2Cfg, c2Det, ratTrunc]

/-- C2 witness: the amended theorem applied to the concrete event
emitted for `c2Det` under `c2Cfg`, and the range bound at `q = 1/2`. -/
theorem doods_region_conversion_witness :
    (∃ d ∈ [c2Det],
        (mkMDetection c2Cfg c2Det).label = d.label ∧
        (mkMDetection c2Cfg c2Det).score = d.confidence ∧
        (mkMDetection c2Cfg c2Det).region =
          { top := conv (d.top * c2Cfg.yMultiplier)
            left := conv (d.left * c2Cfg.xMultiplier)
            bottom := conv (d.bottom * c2Cfg.yMultiplier)
            right := conv (d.right * c2Cfg.xMultiplier) })
    ∧ (0 ≤ conv (1/2) ∧ conv (1/2) ≤ 100) := by
  refine ⟨doods_region_conversion.1 c2Cfg 0 [c2Det] c2Event ?_
            (mkMDetection c2Cfg c2Det) ?_,
          doods_region_conversion.2 (1/2) (by norm_num) (by norm_num)⟩
  · norm_num [parseDetections, c2Cfg, c2Det, c2Event, filterOne,
      List.filter_cons, List.flatMap_cons, List.flatMap_nil]
  · simp [c2Event]

/-- C3 (code bug).  The frame timestamp `readFrames` passes to
`sendFrame` is the raw wall-clock read time: the source evaluates
`t.Add(-d.c.timestampOffset)` but discards the returned time, so the
configured offset is never subtracted.  In particular a frame read at
instant 1000 with a 500 offset is stamped 1000, not `1000 - 500` as
the claim requires. -/
theorem readFrames_timestamp_ignores_offset :
    (∀ now timestampOffset : ℤ, frameTimestamp now timestampOffset = now)
    ∧ frameTimestamp 1000 500 = 1000
    ∧ frameTimestamp 1000 500 ≠ 1000 - 500 := by
  refine ⟨fun _ _ => rfl, rfl, by decide⟩

/-- C4.  `getKeyframeDuration`: a playlist whose trimmed content has
at least two lines and whose penultimate line is `#EXTINF:3.500000,`
parses to 3500 ms; with penultimate line `#EXTINF:4.250000,` it parses
to 4250 ms; any input with fewer than two lines after trimming returns
an error. -/
theorem getKeyframeDuration_spec :
    (∀ s : String,
        2 ≤ (goSplitChar '\x0a' (goTrimSpace s.data)).length →
        (goSplitChar '\x0a' (goTrimSpace s.data)).getD
            ((goSplitChar '\x0a' (goTrimSpace s.data)).length - 2) ""
          = "#EXTINF:3.500000," →
        getKeyframeDuration s = .ok 3500)
    ∧ (∀ s : String,
        2 ≤ (goSplitChar '\x0a' (goTrimSpace s.data)).length →
        (goSplitChar '\x0a' (goTrimSpace s.data)).getD
            ((goSplitChar '\x0a' (goTrimSpace s.data)).length - 2) ""
          = "#EXTINF:4.250000," →
        getKeyframeDuration s = .ok 4250)
    ∧ (∀ s : String,
        (goSplitChar '\x0a' (goTrimSpace s.data)).length < 2 →
        ∃ e, getKeyframeDuration s = .error e) := by
  refine ⟨?_, ?_, ?_⟩
  · intro s h2 hl
    unfold getKeyframeDuration getKeyframeDurationLines
    rw [if_neg (by omega), hl]
    rfl
  · intro s h2 hl
    unfold getKeyframeDuration getKeyframeDurationLines
    rw [if_neg (by omega), hl]
    rfl
  · intro s h
    unfold getKeyframeDuration getKeyframeDurationLines
    rw [if_pos h]
    exact ⟨_, rfl⟩

/-- C4 witness: the three parts of `getKeyframeDuration_spec` applied
to concrete playlists. -/
theorem getKeyframeDuration_spec_witness :
    getKeyframeDuration "#EXTM3U\x0a#EXTINF:3.500000,\x0a10.ts" = .ok 3500
    ∧ getKeyframeDuration "#EXTM3U\x0a#EXTINF:4.250000,\x0a11.ts" = .ok 4250
    ∧ ∃ e, getKeyframeDuration "#EXTM3U" = .error e :=
  ⟨getKeyframeDuration_spec.1 "#EXTM3U\x0a#EXTINF:3.500000,\x0a10.ts"
      (by decide) (by decide),
   getKeyframeDuration_spec.2.1 "#EXTM3U\x0a#EXTINF:4.250000,\x0a11.ts"
      (by decide) (by decide),
   getKeyframeDuration_spec.2.2 "#EXTM3U" (by decide)⟩

/-- C5.  `AddPath`: when the name is not live the call returns the
muxer handle without error and registers the path under the name; when
the name is live it returns `ErrPathAlreadyExist` and leaves both maps
untouched; and of two serialized `AddPath` calls with the same fresh
name, the first succeeds and the second fails with
`ErrPathAlreadyExist` (the manager mutex serializes the two calls, so
these two orders are the only behaviors). -/
theorem addPath_spec :
    (∀ (pm : PMState) (name : String) (c : PathConf),
        hasPath pm name = false →
        (AddPath pm name c).1 = .ok name ∧
        hasPath (AddPath pm name c).2 name = true ∧
        name ∈ (AddPath pm name c).2.paths)
    ∧ (∀ (pm : PMState) (name : String) (c : PathConf),
        hasPath pm name = true →
        AddPath pm name c = (.error .pathAlreadyExist, pm))
    ∧ (∀ (pm : PMState) (name : String) (c₁ c₂ : PathConf),
        hasPath pm name = false →
        (AddPath pm name c₁).1 = .ok name ∧
        (AddPath (AddPath pm name c₁).2 name c₂).1
          = .error .pathAlreadyExist) := by
  refine ⟨?_, ?_, ?_⟩
  · intro pm name c h
    simp only [hasPath] at h
    refine ⟨?_, ?_, ?_⟩
    · simp [AddPath, hasPath, checkAndFillMissing, h]
    · simp [AddPath, hasPath, checkAndFillMissing, h]
    · simp [AddPath, hasPath, checkAndFillMissing, h]
  · intro pm name c h
    simp only [hasPath] at h
    simp [AddPath, hasPath, h]
  · intro pm name c₁ c₂ h
    simp only [hasPath] at h
    refine ⟨?_, ?_⟩
    · simp [AddPath, hasPath, checkAndFillMissing, h]
    · simp [AddPath, hasPath, checkAndFillMissing, h, List.any_append]

/-- C5 witness: `addPath_spec` applied to the empty manager and the
name `"p"`. -/
theorem addPath_spec_witness :
    ((AddPath emptyPM "p" c5Conf).1 = .ok "p" ∧
     hasPath (AddPath emptyPM "p" c5Conf).2 "p" = true ∧
     "p" ∈ (AddPath emptyPM "p" c5Conf).2.paths)
    ∧ ((AddPath emptyPM "p" c5Conf).1 = .ok "p" ∧
       (AddPath (AddPath emptyPM "p" c5Conf).2 "p" c5Conf).1
         = .error .pathAlreadyExist) :=
  ⟨addPath_spec.1 emptyPM "p" c5Conf (by decide),
   addPath_spec.2.2 emptyPM "p" c5Conf c5Conf (by decide)⟩

/-- C6 (code bug).  In the source, the removal goroutine calls
`path.close()` while the manager mutex is held: `closePath` occurs in
the goroutine's step sequence strictly between the `pm.mu.Lock()` and
the deferred `pm.mu.Unlock()` (more lock than unlock steps precede
it) — contradicting the claim that the close is performed outside the
manager mutex. -/
theorem removePathGoroutine_close_holds_mutex :
    PMAction.closePath ∈ removePathGoroutine
    ∧ muHeldAtFirst removePathGoroutine .closePath = true := by
  decide

/-- C7.  `process.Start` returns `nil` when the child exits with
status 255 (the error string of `cmd.Wait` is then exactly
`"exit status 255"`, which the source converts to a `nil` return);
any other wait outcome is returned unchanged; a `cmd.Start` error is
returned as is.  The context-cancel stop path only signals the child
and does not change this return value, so after a stop that ends in
exit status 255 `Start` also returns `nil` (first conjunct). -/
theorem processStart_exit255 :
    processStart none (goExitErr 255) = none
    ∧ (∀ w : Option String, w ≠ some "exit status 255" →
        processStart none w = w)
    ∧ (∀ (e : String) (w : Option String), processStart (some e) w = some e) := by
  refine ⟨by decide, ?_, fun e w => rfl⟩
  intro w hw
  exact if_neg hw

/-- C7 witness: a non-255 exit error is passed through unchanged. -/
theorem processStart_exit255_witness :
    processStart none (some "exit status 1") = some "exit status 1" :=
  processStart_exit255.2.1 (some "exit status 1") (by decide)

/-- C8.  `process.stop`: the first signal sent is always `SIGINT` at
time 0; `SIGKILL` is sent (at exactly the timeout instant) iff the
child has not exited within the timeout; every `SIGKILL` event happens
no earlier than the timeout; and the default timeout installed by
`NewProcess` is 1000 ms. -/
theorem processStop_signal_order :
    (∀ tm ex : ℕ, (stopEvents tm ex).head? = some (0, SigEvent.sigint))
    ∧ (∀ tm ex : ℕ,
        (tm, SigEvent.sigkill) ∈ stopEvents tm ex ↔ tm < ex)
    ∧ (∀ tm ex t : ℕ,
        (t, SigEvent.sigkill) ∈ stopEvents tm ex → tm ≤ t)
    ∧ newProcessTimeoutMs = 1000 := by
  refine ⟨?_, ?_, ?_, rfl⟩
  · intro tm ex
    unfold stopEvents
    split_ifs <;> rfl
  · intro tm ex
    unfold stopEvents
    split_ifs with h
    · constructor
      · intro hm
        simp at hm
      · intro hlt
        omega
    · constructor
      · intro _
        omega
      · intro _
        simp
  · intro tm ex t h
    unfold stopEvents at h
    split_ifs at h with hc
    · simp at h
    · rcases List.mem_cons.mp h with h1 | h1
      · simp at h1
      · rw [List.mem_singleton] at h1
        simp only [Prod.mk.injEq] at h1
        obtain ⟨h2, -⟩ := h1
        omega

/-- C8 witness: with the default 1000 ms timeout and a child that
exits 2000 ms after `SIGINT`, the `SIGKILL` event is in the trace and
not earlier than the timeout. -/
theorem processStop_signal_order_witness :
    (1000, SigEvent.sigkill) ∈ stopEvents 1000 2000 ∧ (1000 : ℕ) ≤ 1000 :=
  ⟨by decide, processStop_signal_order.2.2.1 1000 2000 1000 (by decide)⟩

/-- C9.  `WritePacketRTP` on a packet whose serialization fails
returns before any state change: the per-track
sequence-number/timestamp/NTP/SSRC counters and every reader's write
log are exactly as before the call. -/
theorem writePacketRTP_marshal_error_no_change :
    ∀ (marshal : RtpPacket → Option (List ℕ)) (now : ℤ)
      (st : ServerStreamState) (trackID : ℕ) (pkt : RtpPacket),
      marshal pkt = none →
      WritePacketRTP marshal now st trackID pkt = st := by
  intro marshal now st trackID pkt h
  unfold WritePacketRTP
  rw [h]

/-- C9 witness: a marshal that always fails leaves the concrete state
`c9State` unchanged. -/
theorem writePacketRTP_marshal_error_no_change_witness :
    WritePacketRTP (fun _ => none) 0 c9State 0 c9Packet = c9State :=
  writePacketRTP_marshal_error_no_change (fun _ => none) 0 c9State 0 c9Packet rfl

theorem one_le_of_one_le_ratTrunc {q : ℚ} (h : 1 ≤ ratTrunc q) : 1 ≤ q := by
  by_cases h0 : 0 ≤ q
  · rw [ratTrunc_of_nonneg h0] at h
    exact_mod_cast Int.le_floor.mp h
  · exfalso
    push_neg at h0
    unfold ratTrunc at h
    rw [if_neg (not_le.mpr h0)] at h
    have h1 : 0 ≤ ⌊-q⌋ := Int.floor_nonneg.mpr (by linarith)
    omega

theorem letterbox_multipliers (oW oH : ℤ) (iW iH : ℚ)
    (hoW : 0 < oW) (hoH : 0 < oH) (hiW : 1 ≤ iW) (hiH : 1 ≤ iH) :
    1 ≤ (letterbox oW oH iW iH).2.2.1 ∧ 1 ≤ (letterbox oW oH iW iH).2.2.2 ∧
    ((letterbox oW oH iW iH).2.2.1 = 1 ∨ (letterbox oW oH iW iH).2.2.2 = 1) := by
  have hiW0 : (0 : ℚ) < iW := lt_of_lt_of_le one_pos hiW
  have hiH0 : (0 : ℚ) < iH := lt_of_lt_of_le one_pos hiH
  have hoHq : (0 : ℚ) < (oH : ℚ) := by exact_mod_cast hoH
  have hoWq : (0 : ℚ) < (oW : ℚ) := by exact_mod_cast hoW
  have hne1 : (oH : ℚ) ≠ 0 := ne_of_gt hoHq
  have hne2 : (oW : ℚ) ≠ 0 := ne_of_gt hoWq
  have hne3 : iW ≠ 0 := ne_of_gt hiW0
  have hne4 : iH ≠ 0 := ne_of_gt hiH0
  unfold letterbox
  rcases lt_trichotomy iH iW with hlt | heq | hgt
  · rw [if_pos hlt]
    dsimp only
    have key : (oH : ℚ) / ((oH : ℚ) * iH / iW) = iW / iH := by
      field_simp
      ring
    rw [key]
    exact ⟨le_refl 1, (one_le_div hiH0).mpr hlt.le, Or.inl rfl⟩
  · rw [if_neg (by rw [heq]; exact lt_irrefl iW),
      if_neg (by rw [heq]; exact lt_irrefl iW)]
    exact ⟨le_refl 1, le_refl 1, Or.inl rfl⟩
  · rw [if_neg (not_lt.mpr hgt.le), if_pos hgt]
    dsimp only
    have key : (oW : ℚ) / ((oW : ℚ) * iW / iH) = iH / iW := by
      field_simp
      ring
    rw [key]
    exact ⟨(one_le_div hiW0).mpr hgt.le, le_refl 1, Or.inr rfl⟩

/-- C10.  `generateFFmpegArgs` rejects any monitor input narrower or
shorter than the detector's model input (returning an error and no
argument list or multipliers); on success the input dimensions are at
least the output dimensions (the pipeline never upscales), both
multipliers are at least 1, and at most one differs from 1. -/
theorem generateFFmpegArgs_spec :
    (∀ (oW oH : ℤ) (iW iH : ℚ) (lL hw fps mp : String),
        0 ≤ iW → iW < (oW : ℚ) →
        ∃ e, generateFFmpegArgs oW oH iW iH lL hw fps mp = .error e)
    ∧ (∀ (oW oH : ℤ) (iW iH : ℚ) (lL hw fps mp : String),
        0 ≤ iH → iH < (oH : ℚ) →
        ∃ e, generateFFmpegArgs oW oH iW iH lL hw fps mp = .error e)
    ∧ (∀ (oW oH : ℤ) (iW iH : ℚ) (lL hw fps mp : String) (r : FFArgsResult),
        0 < oW → 0 < oH →
        generateFFmpegArgs oW oH iW iH lL hw fps mp = .ok r →
        1 ≤ r.xMultiplier ∧ 1 ≤ r.yMultiplier ∧
        (r.xMultiplier = 1 ∨ r.yMultiplier = 1) ∧
        oW ≤ ratTrunc iW ∧ oH ≤ ratTrunc iH) := by
  refine ⟨?_, ?_, ?_⟩
  · intro oW oH iW iH lL hw fps mp h0 hlt
    have hg : ratTrunc iW < oW := by
      have h := lt_of_le_of_lt (ratTrunc_le h0) hlt
      exact_mod_cast h
    unfold generateFFmpegArgs
    rw [if_pos hg]
    exact ⟨_, rfl⟩
  · intro oW oH iW iH lL hw fps mp h0 hlt
    have hg : ratTrunc iH < oH := by
      have h := lt_of_le_of_lt (ratTrunc_le h0) hlt
      exact_mod_cast h
    unfold generateFFmpegArgs
    by_cases h1 : ratTrunc iW < oW
    · rw [if_pos h1]
      exact ⟨_, rfl⟩
    · rw [if_neg h1, if_pos hg]
      exact ⟨_, rfl⟩
  · intro oW oH iW iH lL hw fps mp r hoW hoH hok
    unfold generateFFmpegArgs at hok
    by_cases h1 : ratTrunc iW < oW
    · rw [if_pos h1] at hok
      exact absurd hok (by simp)
    · rw [if_neg h1] at hok
      by_cases h2 : ratTrunc iH < oH
      · rw [if_pos h2] at hok
        exact absurd hok (by simp)
      · rw [if_neg h2] at hok
        push_neg at h1 h2
        simp only [Except.ok.injEq] at hok
        subst hok
        have hiW : 1 ≤ iW := one_le_of_one_le_ratTrunc (le_trans hoW h1)
        have hiH : 1 ≤ iH := one_le_of_one_le_ratTrunc (le_trans hoH h2)
        obtain ⟨a, b, c⟩ := letterbox_multipliers oW oH iW iH hoW hoH hiW hiH
        exact ⟨a, b, c, h1, h2⟩

/-- C10 witness: a 200-wide input is rejected against a 300-wide
detector, a 100-tall input against a 300-tall detector, and on the
600×400 input the theorem's success conclusions hold for the computed
result `c10Result` (with `yMultiplier = 3/2`). -/
theorem generateFFmpegArgs_spec_witness :
    (∃ e, generateFFmpegArgs 300 300 200 400 "info" "" "2" "pipe" = .error e)
    ∧ (∃ e, generateFFmpegArgs 300 300 600 100 "info" "" "2" "pipe" = .error e)
    ∧ (1 ≤ c10Result.xMultiplier ∧ 1 ≤ c10Result.yMultiplier ∧
       (c10Result.xMultiplier = 1 ∨ c10Result.yMultiplier = 1) ∧
       (300 : ℤ) ≤ ratTrunc 600 ∧ (300 : ℤ) ≤ ratTrunc 400) := by
  have hlb : letterbox 300 300 600 400 = ("300", "200", 1, 3/2) := by
    unfold letterbox
    rw [if_pos (by norm_num)]
    dsimp only
    have htr : ratTrunc (((300 : ℤ) : ℚ) * 400 / 600) = 200 := by
      norm_num [ratTrunc]
    rw [htr]
    have hx : ((300 : ℤ) : ℚ) / (((300 : ℤ) : ℚ) * 400 / 600) = 3/2 := by
      norm_num
    rw [hx]
    rw [(by decide : toString (300 : ℤ) = "300"),
      (by decide : toString (200 : ℤ) = "200")]
  have hgen : generateFFmpegArgs 300 300 600 400 "info" "" "2" "pipe"
      = .ok c10Result := by
    unfold generateFFmpegArgs
    rw [if_neg (by norm_num [ratTrunc]), if_neg (by norm_num [ratTrunc]), hlb]
    unfold c10Result
    simp only [Except.ok.injEq, FFArgsResult.mk.injEq]
    exact ⟨by decide, trivial, trivial⟩
  exact ⟨generateFFmpegArgs_spec.1 300 300 200 400 "info" "" "2" "pipe"
            (by norm_num) (by norm_num),
         generateFFmpegArgs_spec.2.1 300 300 600 100 "info" "" "2" "pipe"
            (by norm_num) (by norm_num),
         generateFFmpegArgs_spec.2.2 300 300 600 400 "info" "" "2" "pipe"
            c10Result (by norm_num) (by norm_num) hgen⟩

end OsNvr
